import Mathlib

/-!
Verification of the incremental stock-data synchronization and
feature/label engineering pipeline.

The definitions below are a shallow embedding of the Python source:
`src/data/data_cleaner.py` (cleaning and feature engineering),
`src/data/realtime_updater.py` (sync controller),
`src/utils/database.py` (append-only dataframe insertion),
`src/models/random_forest_predictor.py` (label construction), and
`src/models/arima_forecaster.py` (ARIMA order selection).

Prices are modelled as exact rationals; a pandas `NaN` cell is modelled
as `Option.none`.  Pandas comparison semantics on `NaN` (any comparison
with `NaN` is `False`) are reproduced explicitly in the row predicates.
-/

namespace StockPipeline

/-- `drop_duplicates(subset=key, keep='first')`: keep the first row for
each key, preserving order.  `seen` is the set of keys already kept. -/
def dropDupByAux {α κ : Type} [DecidableEq κ] (key : α → κ) (seen : List κ) :
    List α → List α
  | [] => []
  | x :: xs =>
    if key x ∈ seen then dropDupByAux key seen xs
    else x :: dropDupByAux key (key x :: seen) xs

/-- pandas `DataFrame.drop_duplicates(subset=key)`. -/
def dropDupBy {α κ : Type} [DecidableEq κ] (key : α → κ) (l : List α) : List α :=
  dropDupByAux key [] l

theorem dropDupByAux_sublist {α κ : Type} [DecidableEq κ] (key : α → κ) :
    ∀ (seen : List κ) (l : List α), List.Sublist (dropDupByAux key seen l) l := by
  intro seen l
  induction l generalizing seen with
  | nil => simp [dropDupByAux]
  | cons x xs ih =>
    simp only [dropDupByAux]
    by_cases h : key x ∈ seen
    · simp only [h, if_true]
      exact (ih seen).trans (List.sublist_cons_self x xs)
    · simp only [h, if_false]
      exact (ih (key x :: seen)).cons₂ x

theorem dropDupBy_sublist {α κ : Type} [DecidableEq κ] (key : α → κ) (l : List α) :
    List.Sublist (dropDupBy key l) l :=
  dropDupByAux_sublist key [] l

theorem mem_of_mem_dropDupBy {α κ : Type} [DecidableEq κ] (key : α → κ)
    {l : List α} {x : α} (h : x ∈ dropDupBy key l) : x ∈ l :=
  (dropDupBy_sublist key l).mem h

/-- Keys kept by `dropDupByAux` avoid `seen` and are pairwise distinct. -/
theorem dropDupByAux_keys_nodup {α κ : Type} [DecidableEq κ] (key : α → κ) :
    ∀ (seen : List κ) (l : List α),
      ((dropDupByAux key seen l).map key).Nodup ∧
      ∀ x ∈ dropDupByAux key seen l, key x ∉ seen := by
  intro seen l
  induction l generalizing seen with
  | nil => simp [dropDupByAux]
  | cons x xs ih =>
    simp only [dropDupByAux]
    by_cases h : key x ∈ seen
    · simpa [h] using ih seen
    · simp only [h, if_false, List.map_cons, List.nodup_cons, List.mem_map]
      have h1 := ih (key x :: seen)
      refine ⟨⟨?_, h1.1⟩, ?_⟩
      · rintro ⟨y, hy, hkey⟩
        exact (h1.2 y hy) (by simp [hkey])
      · intro y hy
        rcases List.mem_cons.mp hy with hy' | hy'
        · subst hy'; exact h
        · have h2 := h1.2 y hy'
          intro hc
          exact h2 (by simp [hc])

theorem dropDupBy_keys_nodup {α κ : Type} [DecidableEq κ] (key : α → κ)
    (l : List α) : ((dropDupBy key l).map key).Nodup :=
  (dropDupByAux_keys_nodup key [] l).1

/-- If the keys of `l` are already pairwise distinct, dropping duplicates
keeps every row. -/
theorem dropDupByAux_eq_self {α κ : Type} [DecidableEq κ] (key : α → κ) :
    ∀ (seen : List κ) (l : List α), (l.map key).Nodup →
      (∀ x ∈ l, key x ∉ seen) → dropDupByAux key seen l = l := by
  intro seen l
  induction l generalizing seen with
  | nil => intro _ _; simp [dropDupByAux]
  | cons x xs ih =>
    intro hnd hseen
    simp only [List.map_cons, List.nodup_cons, List.mem_map] at hnd
    simp only [dropDupByAux, hseen x (by simp), if_false]
    congr 1
    refine ih (key x :: seen) hnd.2 ?_
    intro y hy
    simp only [List.mem_cons]
    rintro (hc | hc)
    · exact hnd.1 ⟨y, hy, hc⟩
    · exact hseen y (by simp [hy]) hc

theorem dropDupBy_eq_self {α κ : Type} [DecidableEq κ] (key : α → κ)
    {l : List α} (h : (l.map key).Nodup) : dropDupBy key l = l :=
  dropDupByAux_eq_self key [] l h (by simp)

/-! ## Validation & Cleaning Stage: `clean_stock_data` (src/data/data_cleaner.py) -/

/-- A raw price bar as loaded into the cleaning stage.  OHLC prices and
volume may be missing (pandas `NaN`), modelled as `none`.  Dates are
modelled as integers (days). -/
structure RawBar where
  symbol : String
  date : ℤ
  open_ : Option ℚ
  high : Option ℚ
  low : Option ℚ
  close : Option ℚ
  volume : Option ℚ
deriving DecidableEq, Inhabited

/-- The (symbol, date) identity key of a bar. -/
def rawKey (b : RawBar) : String × ℤ := (b.symbol, b.date)

/-- Date comparison used by `df.sort_values('date')`. -/
def dateLe (a b : RawBar) : Prop := a.date ≤ b.date

instance : DecidableRel dateLe := fun a b => inferInstanceAs (Decidable (a.date ≤ b.date))

instance : IsTotal RawBar dateLe := ⟨fun a b => le_total a.date b.date⟩

instance : IsTrans RawBar dateLe := ⟨fun _ _ _ h1 h2 => le_trans h1 h2⟩

/-- `df.sort_values('date')`: sort ascending by date.  Modelled with a
deterministic stable sort. -/
def sort_values_date (l : List RawBar) : List RawBar := List.insertionSort dateLe l

/-- One column cell after forward-fill: keep the current value if present,
otherwise the most recent earlier value of the column. -/
def ffillVal (cur prev : Option ℚ) : Option ℚ :=
  match cur with
  | some v => some v
  | none => prev

/-- `df[['open','high','low','close']].fillna(method='ffill')`:
forward-fill each OHLC column independently.  The state carries, per
column, the last value seen so far. -/
def ffill_prices : Option ℚ × Option ℚ × Option ℚ × Option ℚ → List RawBar → List RawBar
  | _, [] => []
  | st, b :: bs =>
    let o := ffillVal b.open_ st.1
    let h := ffillVal b.high st.2.1
    let l := ffillVal b.low st.2.2.1
    let c := ffillVal b.close st.2.2.2
    { b with open_ := o, high := h, low := l, close := c } ::
      ffill_prices (o, h, l, c) bs

/-- `df['volume'] = df['volume'].fillna(0)`. -/
def fill_volume (l : List RawBar) : List RawBar :=
  l.map fun b => { b with volume := some (b.volume.getD 0) }

/-- `df.isnull()` on a row: some cell of the row is missing. -/
def has_missing (b : RawBar) : Bool :=
  b.open_.isNone || b.high.isNone || b.low.isNone || b.close.isNone || b.volume.isNone

/-- `(df[['open','high','low','close']] <= 0).any(axis=1)`.
A `NaN` cell compares `False` in pandas, so a missing cell is not
flagged as invalid here. -/
def has_invalid_price (b : RawBar) : Bool :=
  (match b.open_ with | some v => decide (v ≤ 0) | none => false) ||
  (match b.high with | some v => decide (v ≤ 0) | none => false) ||
  (match b.low with | some v => decide (v ≤ 0) | none => false) ||
  (match b.close with | some v => decide (v ≤ 0) | none => false)

/-- pandas comparison of two possibly-missing cells: `a >= b` is `True`
only when both are present and the inequality holds. -/
def optGe (a b : Option ℚ) : Bool :=
  match a, b with
  | some x, some y => decide (y ≤ x)
  | _, _ => false

/-- The `high >= low`, `high >= open`, `high >= close` row filter. -/
def price_logic_ok (b : RawBar) : Bool :=
  optGe b.high b.low && optGe b.high b.open_ && optGe b.high b.close

/-- The first three steps of `clean_stock_data`: drop duplicate
(symbol, date) rows, sort ascending by date, and (only when some cell is
missing, mirroring the `missing_counts.sum() > 0` guard) forward-fill
OHLC and zero-fill volume. -/
def clean_prefilter (df : List RawBar) : List RawBar :=
  if (sort_values_date (dropDupBy rawKey df)).any has_missing then
    fill_volume (ffill_prices (none, none, none, none)
      (sort_values_date (dropDupBy rawKey df)))
  else sort_values_date (dropDupBy rawKey df)

/-- `clean_stock_data` (src/data/data_cleaner.py lines 67-114):
deduplicate, sort, fill missing values, drop rows with non-positive
prices, drop rows violating the high/low/open/close ordering. -/
def clean_stock_data (df : List RawBar) : List RawBar :=
  ((clean_prefilter df).filter fun b => !(has_invalid_price b)).filter price_logic_ok

theorem ffill_prices_map_key (st : Option ℚ × Option ℚ × Option ℚ × Option ℚ)
    (l : List RawBar) : (ffill_prices st l).map rawKey = l.map rawKey := by
  induction l generalizing st with
  | nil => simp [ffill_prices]
  | cons b bs ih => simp [ffill_prices, rawKey, ih]

theorem fill_volume_map_key (l : List RawBar) :
    (fill_volume l).map rawKey = l.map rawKey := by
  unfold fill_volume
  rw [List.map_map]
  rfl

theorem clean_prefilter_map_key (df : List RawBar) :
    (clean_prefilter df).map rawKey =
      (sort_values_date (dropDupBy rawKey df)).map rawKey := by
  unfold clean_prefilter
  by_cases h : (sort_values_date (dropDupBy rawKey df)).any has_missing = true
  · rw [if_pos h, fill_volume_map_key, ffill_prices_map_key]
  · rw [if_neg h]

/-- Pairwise date-order only depends on the (symbol, date) keys. -/
theorem pairwise_dateLe_of_map_key_eq {l l' : List RawBar}
    (hk : l'.map rawKey = l.map rawKey) (h : l.Pairwise dateLe) :
    l'.Pairwise dateLe := by
  have hd : l'.map (fun b => b.date) = l.map (fun b => b.date) := by
    have e : ∀ m : List RawBar, m.map (fun b => b.date) = (m.map rawKey).map Prod.snd := by
      intro m; rw [List.map_map]; rfl
    rw [e, e, hk]
  have h1 : (l.map fun b => b.date).Pairwise (· ≤ ·) := by
    rw [List.pairwise_map]; exact h
  have h2 : (l'.map fun b => b.date).Pairwise (· ≤ ·) := by rw [hd]; exact h1
  rw [List.pairwise_map] at h2
  exact h2

theorem clean_prefilter_sorted (df : List RawBar) :
    (clean_prefilter df).Pairwise dateLe := by
  have hs : (sort_values_date (dropDupBy rawKey df)).Pairwise dateLe :=
    List.sorted_insertionSort dateLe (dropDupBy rawKey df)
  exact pairwise_dateLe_of_map_key_eq (clean_prefilter_map_key df) hs

theorem clean_prefilter_keys_nodup (df : List RawBar) :
    ((clean_prefilter df).map rawKey).Nodup := by
  rw [clean_prefilter_map_key]
  have hperm : List.Perm (sort_values_date (dropDupBy rawKey df)) (dropDupBy rawKey df) :=
    List.perm_insertionSort dateLe (dropDupBy rawKey df)
  exact ((hperm.map rawKey).nodup_iff).mpr (dropDupBy_keys_nodup rawKey df)

theorem clean_prefilter_volume_isSome (df : List RawBar) :
    ∀ b ∈ clean_prefilter df, b.volume.isSome := by
  intro b hb
  unfold clean_prefilter at hb
  by_cases h : (sort_values_date (dropDupBy rawKey df)).any has_missing = true
  · rw [if_pos h] at hb
    rcases List.mem_map.mp hb with ⟨a, _, rfl⟩
    simp
  · rw [if_neg h] at hb
    have hf : (sort_values_date (dropDupBy rawKey df)).any has_missing = false := by
      simpa using h
    have h2 : has_missing b = false := by
      simpa using List.any_eq_false.mp hf b hb
    simp only [has_missing, Bool.or_eq_false_iff] at h2
    rcases ev : b.volume with _ | v
    · exfalso
      have h3 := h2.2
      rw [ev] at h3
      simp at h3
    · simp [ev]

theorem mem_clean_stock_data {df : List RawBar} {b : RawBar}
    (hb : b ∈ clean_stock_data df) :
    price_logic_ok b = true ∧ has_invalid_price b = false ∧ b ∈ clean_prefilter df := by
  unfold clean_stock_data at hb
  have h1 := List.mem_filter.mp hb
  have h2 := List.mem_filter.mp h1.1
  exact ⟨h1.2, by simpa using h2.2, h2.1⟩

/-- Every cleaned bar has fully defined OHLC prices satisfying the
positivity and high-ordering invariants. -/
theorem clean_bar_valid {df : List RawBar} {b : RawBar}
    (hb : b ∈ clean_stock_data df) :
    ∃ o h l c : ℚ, b.open_ = some o ∧ b.high = some h ∧ b.low = some l ∧
      b.close = some c ∧ 0 < o ∧ 0 < h ∧ 0 < l ∧ 0 < c ∧ l ≤ h ∧ o ≤ h ∧ c ≤ h := by
  obtain ⟨hlogic, hinv, _⟩ := mem_clean_stock_data hb
  simp only [price_logic_ok, Bool.and_eq_true, optGe] at hlogic
  obtain ⟨⟨hhl, hho⟩, hhc⟩ := hlogic
  rcases eh : b.high with _ | h <;> rcases el : b.low with _ | l <;>
    simp [eh, el] at hhl
  rcases eo : b.open_ with _ | o <;> simp [eh, eo] at hho
  rcases ec : b.close with _ | c <;> simp [eh, ec] at hhc
  simp only [has_invalid_price, eh, el, eo, ec, Bool.or_eq_false_iff,
    decide_eq_false_iff_not, not_le] at hinv
  exact ⟨o, h, l, c, rfl, rfl, rfl, rfl, hinv.1.1.1, hinv.1.1.2, hinv.1.2, hinv.2,
    hhl, hho, hhc⟩

theorem clean_stock_data_sublist_prefilter (df : List RawBar) :
    List.Sublist (clean_stock_data df) (clean_prefilter df) :=
  (List.filter_sublist _).trans (List.filter_sublist _)

theorem clean_stock_data_sorted (df : List RawBar) :
    (clean_stock_data df).Pairwise dateLe :=
  (clean_prefilter_sorted df).sublist (clean_stock_data_sublist_prefilter df)

theorem clean_stock_data_keys_nodup (df : List RawBar) :
    ((clean_stock_data df).map rawKey).Nodup :=
  (clean_prefilter_keys_nodup df).sublist
    ((clean_stock_data_sublist_prefilter df).map rawKey)

/-- Every cleaned bar has no missing cell at all. -/
theorem clean_bar_not_missing {df : List RawBar} {b : RawBar}
    (hb : b ∈ clean_stock_data df) : has_missing b = false := by
  obtain ⟨o, h, l, c, eo, eh, el, ec, _⟩ := clean_bar_valid hb
  have hv : b.volume.isSome :=
    clean_prefilter_volume_isSome df b (mem_clean_stock_data hb).2.2
  rcases ev : b.volume with _ | v
  · rw [ev] at hv; simp at hv
  · simp [has_missing, eo, eh, el, ec, ev]

theorem clean_prefilter_of_clean (df : List RawBar) :
    clean_prefilter (clean_stock_data df) = clean_stock_data df := by
  unfold clean_prefilter
  have h1 : dropDupBy rawKey (clean_stock_data df) = clean_stock_data df :=
    dropDupBy_eq_self rawKey (clean_stock_data_keys_nodup df)
  rw [h1]
  have h2 : sort_values_date (clean_stock_data df) = clean_stock_data df := by
    unfold sort_values_date
    exact List.Sorted.insertionSort_eq (clean_stock_data_sorted df)
  rw [h2]
  have h3 : (clean_stock_data df).any has_missing = false :=
    List.any_eq_false.mpr fun b hb => by simp [clean_bar_not_missing hb]
  rw [h3]
  simp

/-! ## Claims C3 and C4 -/

/-- C3: every row of the cleaning stage's output has fully defined
positive OHLC prices with high ≥ low, high ≥ open and high ≥ close; the
output is sorted ascending by date and contains no duplicate
(symbol, date) pairs; and if every row surviving the
dedup/sort/fill prefix is rejected by the price filters, the output is
empty. -/
theorem claim_C3_clean_output_invariants (df : List RawBar) :
    (∀ b ∈ clean_stock_data df,
      ∃ o h l c : ℚ, b.open_ = some o ∧ b.high = some h ∧ b.low = some l ∧
        b.close = some c ∧ 0 < o ∧ 0 < h ∧ 0 < l ∧ 0 < c ∧
        l ≤ h ∧ o ≤ h ∧ c ≤ h) ∧
    (clean_stock_data df).Pairwise dateLe ∧
    ((clean_stock_data df).map rawKey).Nodup ∧
    ((∀ b ∈ clean_prefilter df, has_invalid_price b = true ∨ price_logic_ok b = false) →
      clean_stock_data df = []) := by
  refine ⟨fun b hb => clean_bar_valid hb, clean_stock_data_sorted df,
    clean_stock_data_keys_nodup df, fun hrej => ?_⟩
  rw [List.eq_nil_iff_forall_not_mem]
  intro b hb
  obtain ⟨hlogic, hinv, hmem⟩ := mem_clean_stock_data hb
  rcases hrej b hmem with hc | hc
  · rw [hinv] at hc; simp at hc
  · rw [hlogic] at hc; simp at hc

/-- Witness for C3: a sequence whose only bar violates high ≥ low is
cleaned to the empty output. -/
theorem claim_C3_witness :
    clean_stock_data
      [{ symbol := "AAPL", date := 0, open_ := some 1, high := some 1,
         low := some 2, close := some 1, volume := some 0 }] = [] :=
  (claim_C3_clean_output_invariants _).2.2.2 (by decide)

/-- C4: the cleaning stage is idempotent — applying `clean_stock_data`
to its own output drops no further rows and changes no value. -/
theorem claim_C4_clean_idempotent (df : List RawBar) :
    clean_stock_data (clean_stock_data df) = clean_stock_data df := by
  conv_lhs => rw [clean_stock_data]
  rw [clean_prefilter_of_clean]
  have h4 : (clean_stock_data df).filter (fun b => !(has_invalid_price b)) =
      clean_stock_data df :=
    List.filter_eq_self.mpr fun b hb => by
      simp [(mem_clean_stock_data hb).2.1]
  rw [h4]
  exact List.filter_eq_self.mpr fun b hb => (mem_clean_stock_data hb).1

/-! ## Sync Controller: `realtime_updater.py` and `database.insert_dataframe` -/

/-- A fully populated price bar as fetched from the provider
(`fetch_latest_data` renames the yfinance columns and fills all cells). -/
structure StockRow where
  symbol : String
  date : ℤ
  open_ : ℚ
  high : ℚ
  low : ℚ
  close : ℚ
  volume : ℚ
deriving DecidableEq, Inhabited

/-- The (symbol, date) identity key of a stored row. -/
def stockKey (r : StockRow) : String × ℤ := (r.symbol, r.date)

/-- `insert_dataframe` (src/utils/database.py lines 95-102):
`df.to_sql(table, engine, if_exists='append', index=False)` — an
append of the frame's rows to the existing table contents.  The
`stocks` table declares no unique constraint on (symbol, date), so the
append never replaces or merges existing rows. -/
def insert_dataframe (df table : List StockRow) : List StockRow := table ++ df

/-- `MAX_DAYS_BACK` (src/config.py): maximum lookback window in days. -/
def MAX_DAYS_BACK : ℤ := 365

/-- The fetch decision taken by `update_stock_data`. -/
inductive SyncDecision where
  | upToDate : SyncDecision
  | fetchWindow : ℤ → SyncDecision
deriving DecidableEq

/-- The window-sizing logic of `update_stock_data`
(src/data/realtime_updater.py lines 118-141): with no stored date fetch
the full `MAX_DAYS_BACK` window; with a stored date and
`days_since == 0` and no force flag, do nothing; otherwise fetch
`min(days_since + 2, MAX_DAYS_BACK)` days. -/
def update_decision (latest_db_date : Option ℤ) (today : ℤ)
    (force_update : Bool) : SyncDecision :=
  match latest_db_date with
  | none => SyncDecision.fetchWindow MAX_DAYS_BACK
  | some d =>
    if today - d = 0 ∧ force_update = false then SyncDecision.upToDate
    else SyncDecision.fetchWindow (min (today - d + 2) MAX_DAYS_BACK)

/-- The date range requested by `fetch_latest_data`
(src/data/realtime_updater.py lines 52-72): `days_back` days ending
today. -/
def fetch_window (today days_back : ℤ) : ℤ × ℤ := (today - days_back, today)

/-- `update_stock_data` (src/data/realtime_updater.py lines 107-158).
`provider db` models `fetch_latest_data(symbol, db)`; it returns the
empty list both when the provider has no data for the window and when
the fetch raised (the source catches the exception and returns an empty
frame).  The result is the success flag and the new `stocks` table
contents. -/
def update_stock_data (latest_db_date : Option ℤ) (today : ℤ)
    (force_update : Bool) (provider : ℤ → List StockRow)
    (stocks : List StockRow) : Bool × List StockRow :=
  match update_decision latest_db_date today force_update with
  | SyncDecision.upToDate => (true, stocks)
  | SyncDecision.fetchWindow db =>
    if provider db = [] then (false, stocks)
    else (true, insert_dataframe (dropDupBy stockKey (provider db)) stocks)

/-- The body of the symbol loop of `update_all_stocks`
(src/data/realtime_updater.py lines 160-181), carrying
(success_count, processed_count) and the store. -/
def update_all_stocks_go (latest : String → Option ℤ) (today : ℤ)
    (force_update : Bool) (provider : String → ℤ → List StockRow) :
    List String → (ℕ × ℕ) × List StockRow → (ℕ × ℕ) × List StockRow
  | [], acc => acc
  | s :: rest, acc =>
    update_all_stocks_go latest today force_update provider rest
      ((acc.1.1 +
          (if (update_stock_data (latest s) today force_update (provider s) acc.2).1
           then 1 else 0),
        acc.1.2 + 1),
       (update_stock_data (latest s) today force_update (provider s) acc.2).2)

/-- `update_all_stocks`: process every symbol in turn, counting
successes; per-symbol failures are logged and do not stop the loop. -/
def update_all_stocks (symbols : List String) (latest : String → Option ℤ)
    (today : ℤ) (force_update : Bool)
    (provider : String → ℤ → List StockRow) (stocks : List StockRow) :
    (ℕ × ℕ) × List StockRow :=
  update_all_stocks_go latest today force_update provider symbols ((0, 0), stocks)

/-- The success flag of a single-symbol update does not depend on the
current store contents. -/
theorem update_ok_store_independent (latest_db_date : Option ℤ) (today : ℤ)
    (force_update : Bool) (provider : ℤ → List StockRow)
    (stocks : List StockRow) :
    (update_stock_data latest_db_date today force_update provider stocks).1 =
    (update_stock_data latest_db_date today force_update provider []).1 := by
  unfold update_stock_data
  rcases update_decision latest_db_date today force_update with _ | db
  · rfl
  · by_cases h : provider db = []
    · simp [h]
    · simp [h]

theorem countP_add_countP_not {α : Type} (p : α → Bool) (l : List α) :
    l.countP p + l.countP (fun a => !(p a)) = l.length := by
  induction l with
  | nil => simp
  | cons x xs ih =>
    by_cases h : p x
    · simp [List.countP_cons, h]
      omega
    · simp [List.countP_cons, h]
      omega

theorem update_all_stocks_go_counts (latest : String → Option ℤ) (today : ℤ)
    (force_update : Bool) (provider : String → ℤ → List StockRow) :
    ∀ (symbols : List String) (succ total : ℕ) (stocks : List StockRow),
      (update_all_stocks_go latest today force_update provider symbols
          ((succ, total), stocks)).1.1 =
        succ + symbols.countP
          (fun s => (update_stock_data (latest s) today force_update (provider s) []).1) ∧
      (update_all_stocks_go latest today force_update provider symbols
          ((succ, total), stocks)).1.2 = total + symbols.length := by
  intro symbols
  induction symbols with
  | nil => intro succ total stocks; simp [update_all_stocks_go]
  | cons s rest ih =>
    intro succ total stocks
    simp only [update_all_stocks_go]
    obtain ⟨ih1, ih2⟩ := ih
      (succ + if (update_stock_data (latest s) today force_update (provider s) stocks).1
              then 1 else 0)
      (total + 1)
      (update_stock_data (latest s) today force_update (provider s) stocks).2
    refine ⟨?_, ?_⟩
    · rw [ih1, List.countP_cons, update_ok_store_independent]
      by_cases h : (update_stock_data (latest s) today force_update (provider s) []).1
      · simp [h]
        try omega
      · simp [h]
        try omega
    · rw [ih2]
      simp only [List.length_cons]
      omega

/-! ## Claims C1, C5, C6, C9 -/

/-- C1 (code bug): re-running the sync over the same window duplicates
rows.  A bar is synced into an empty store; a second, forced sync of the
same window fetches the same bar again and `insert_dataframe` appends it
(`to_sql(..., if_exists='append')`, no (symbol, date) unique
constraint), leaving two rows with the key (AAPL, 20240102) — the write
is not an idempotent upsert. -/
theorem claim_C1_sync_write_duplicates :
    (update_stock_data (some 20240102) 20240102 true
        (fun _ => [{ symbol := "AAPL", date := 20240102, open_ := 100,
                     high := 105, low := 95, close := 103, volume := 1000 }])
        (update_stock_data none 20240102 false
          (fun _ => [{ symbol := "AAPL", date := 20240102, open_ := 100,
                       high := 105, low := 95, close := 103, volume := 1000 }])
          []).2).2 =
      [{ symbol := "AAPL", date := 20240102, open_ := 100, high := 105,
         low := 95, close := 103, volume := 1000 },
       { symbol := "AAPL", date := 20240102, open_ := 100, high := 105,
         low := 95, close := 103, volume := 1000 }] ∧
    ¬ (((update_stock_data (some 20240102) 20240102 true
        (fun _ => [{ symbol := "AAPL", date := 20240102, open_ := 100,
                     high := 105, low := 95, close := 103, volume := 1000 }])
        (update_stock_data none 20240102 false
          (fun _ => [{ symbol := "AAPL", date := 20240102, open_ := 100,
                       high := 105, low := 95, close := 103, volume := 1000 }])
          []).2).2).map stockKey).Nodup := by
  constructor
  · rfl
  · decide

/-- C5: a stored latest date equal to today with no force flag is a
successful no-op; otherwise the requested window is exactly
`min(days_since + 2, MAX_DAYS_BACK)` days ending today (5 days when the
stored date is 3 days old); with no stored date the full
`MAX_DAYS_BACK` window is requested. -/
theorem claim_C5_fetch_window_sizing (d today : ℤ) (force_update : Bool)
    (provider : ℤ → List StockRow) (stocks : List StockRow) :
    (update_stock_data (some today) today false provider stocks = (true, stocks)) ∧
    (¬(today - d = 0 ∧ force_update = false) →
      update_decision (some d) today force_update =
        SyncDecision.fetchWindow (min (today - d + 2) MAX_DAYS_BACK)) ∧
    (update_decision none today force_update =
      SyncDecision.fetchWindow MAX_DAYS_BACK) ∧
    (update_decision (some (today - 3)) today force_update =
      SyncDecision.fetchWindow 5) ∧
    (∀ days_back : ℤ, fetch_window today days_back = (today - days_back, today)) := by
  refine ⟨?_, ?_, rfl, ?_, fun _ => rfl⟩
  · unfold update_stock_data update_decision
    simp
  · intro h
    simp only [update_decision]
    rw [if_neg h]
  · simp only [update_decision]
    rw [if_neg (by omega : ¬(today - (today - 3) = 0 ∧ force_update = false))]
    have h2 : today - (today - 3) + 2 = 5 := by omega
    rw [h2]
    decide

/-- Witness for C5: with the stored date 3 days old and no force flag,
the decision is a 5-day fetch window. -/
theorem claim_C5_witness :
    update_decision (some 0) 3 false =
      SyncDecision.fetchWindow (min (3 - 0 + 2) MAX_DAYS_BACK) :=
  (claim_C5_fetch_window_sizing 0 3 false (fun _ => []) []).2.1 (by decide)

/-- C6 counterexample: the claim says an empty provider result is
reported as success, but `update_stock_data` returns `False` when the
fetched frame is empty (src/data/realtime_updater.py lines 143-145). -/
theorem claim_C6_counterexample :
    (update_stock_data (some 20240101) 20240104 false (fun _ => []) []).1 = false := by
  decide

/-- C6 (amended): when a fetch is attempted and the provider returns an
empty result, the sync reports failure (`False`) and leaves the store
unchanged — a no-op, but counted as a failure, not a success. -/
theorem claim_C6_empty_result_is_failure (latest_db_date : Option ℤ)
    (today : ℤ) (force_update : Bool) (provider : ℤ → List StockRow)
    (stocks : List StockRow) (db : ℤ)
    (hdec : update_decision latest_db_date today force_update =
      SyncDecision.fetchWindow db)
    (hempty : provider db = []) :
    update_stock_data latest_db_date today force_update provider stocks =
      (false, stocks) := by
  unfold update_stock_data
  rw [hdec]
  simp [hempty]

/-- Witness for C6 (amended): an empty 5-day fetch reports failure. -/
theorem claim_C6_witness :
    update_stock_data (some 0) 3 false (fun _ => []) [] = (false, []) :=
  claim_C6_empty_result_is_failure (some 0) 3 false (fun _ => []) [] 5
    (by decide) rfl

/-- C9: a batch over N symbols always processes all N symbols and
reports N − M successes, where M is the number of symbols whose update
reports failure (the provider returned nothing, including the
exception-swallowing path); no symbol's failure stops the batch. -/
theorem claim_C9_batch_soft_failure (symbols : List String)
    (latest : String → Option ℤ) (today : ℤ) (force_update : Bool)
    (provider : String → ℤ → List StockRow) (stocks : List StockRow) :
    (update_all_stocks symbols latest today force_update provider stocks).1.2 =
      symbols.length ∧
    (update_all_stocks symbols latest today force_update provider stocks).1.1 =
      symbols.length - symbols.countP
        (fun s => !(update_stock_data (latest s) today force_update (provider s) []).1) := by
  obtain ⟨h1, h2⟩ := update_all_stocks_go_counts latest today force_update provider
    symbols 0 0 stocks
  have hc := countP_add_countP_not
    (fun s => (update_stock_data (latest s) today force_update (provider s) []).1)
    symbols
  unfold update_all_stocks
  refine ⟨by rw [h2]; omega, ?_⟩
  rw [h1]
  omega

/-! ## Label Constructor: `create_target_variable`
(src/models/random_forest_predictor.py lines 81-104) -/

/-- One row of the labeled frame: the closing price together with the
`future_price`, `price_change_pct` and `target` columns added by
`create_target_variable`.  `future_price` and `price_change_pct` are
`NaN` (`none`) on the last `days_ahead` rows; `target` is an integer
column (pandas `astype(int)`), so it is never `NaN`. -/
structure TargetRow where
  close : ℚ
  future_price : Option ℚ
  price_change_pct : Option ℚ
  target : ℕ
deriving DecidableEq, Inhabited

/-- The column constructions of `create_target_variable`:
`future_price = close.shift(-days_ahead)`,
`price_change_pct = (future_price - close) / close * 100`, and
`target = (price_change_pct > 2).astype(int)`.  Pandas evaluates
`NaN > 2` as `False`, so rows with undefined `future_price` get
`target = 0`, not `NaN`. -/
def target_rows (closes : List ℚ) (days_ahead : ℕ) : List TargetRow :=
  (List.range closes.length).map fun i =>
    { close := closes.getD i 0
      future_price :=
        if i + days_ahead < closes.length then some (closes.getD (i + days_ahead) 0)
        else none
      price_change_pct :=
        if i + days_ahead < closes.length then
          some ((closes.getD (i + days_ahead) 0 - closes.getD i 0) / closes.getD i 0 * 100)
        else none
      target :=
        if i + days_ahead < closes.length then
          (if 2 < (closes.getD (i + days_ahead) 0 - closes.getD i 0) / closes.getD i 0 * 100
           then 1 else 0)
        else 0 }

/-- `df.dropna(subset=['target'])`: the target column was cast to int
before this call, so it contains no `NaN` and no row is dropped. -/
def dropna_subset_target (rows : List TargetRow) : List TargetRow :=
  rows.filter fun _ => true

/-- `create_target_variable`: add the three columns, then drop rows
whose target is missing (which never happens, see above). -/
def create_target_variable (closes : List ℚ) (days_ahead : ℕ) : List TargetRow :=
  dropna_subset_target (target_rows closes days_ahead)

/-! ## Claim C2 -/

/-- C2 (code bug): on closes [100, 102, 105, 98, 110] with horizon 2 the
label constructor keeps all 5 rows — the last 2 rows, whose
`future_close` is undefined, are retained with the sentinel target 0
instead of being excluded (`NaN > 2` is `False`, the cast to int makes
the column non-null, and the subsequent `dropna(subset=['target'])`
drops nothing).  The defined-horizon rows do get
`target = 1 ↔ price_change_pct > 2`. -/
theorem claim_C2_last_rows_retained :
    (create_target_variable [100, 102, 105, 98, 110] 2).length = 5 ∧
    (create_target_variable [100, 102, 105, 98, 110] 2).map
        (fun r => r.target) = [1, 0, 1, 0, 0] ∧
    ((create_target_variable [100, 102, 105, 98, 110] 2).getD 3 default).future_price
        = none ∧
    ((create_target_variable [100, 102, 105, 98, 110] 2).getD 4 default).future_price
        = none ∧
    ((create_target_variable [100, 102, 105, 98, 110] 2).getD 3 default).target = 0 ∧
    ((create_target_variable [100, 102, 105, 98, 110] 2).getD 4 default).target = 0 := by
  refine ⟨rfl, ?_, rfl, rfl, rfl, rfl⟩
  norm_num [create_target_variable, dropna_subset_target, target_rows, List.range_succ]

/-! ## Order Selector: `find_optimal_arima_order`
(src/models/arima_forecaster.py lines 83-117) -/

/-- An ARIMA (p, d, q) order candidate. -/
abbrev ArimaOrder := ℕ × ℕ × ℕ

/-- `ARIMA_ORDER` (src/config.py): the configured default order. -/
def ARIMA_ORDER : ArimaOrder := (1, 1, 1)

/-- The grid enumerated by the three nested loops, in iteration order
p, then d, then q. -/
def gridOrders (max_p max_d max_q : ℕ) : List ArimaOrder :=
  (List.range (max_p + 1)).flatMap fun p =>
    (List.range (max_d + 1)).flatMap fun d =>
      (List.range (max_q + 1)).map fun q => (p, d, q)

/-- One loop iteration: attempt the fit (`fit o` is the AIC of a
successful fit, `none` when fitting raised and the candidate is
skipped); keep the candidate on a strictly smaller AIC, so ties keep
the earlier candidate.  `none` as accumulator models
`best_aic = np.inf, best_order = None`. -/
def selectStep (fit : ArimaOrder → Option ℚ) (acc : Option (ArimaOrder × ℚ))
    (o : ArimaOrder) : Option (ArimaOrder × ℚ) :=
  match fit o with
  | none => acc
  | some a =>
    match acc with
    | none => some (o, a)
    | some (bo, ba) => if a < ba then some (o, a) else some (bo, ba)

/-- The grid-search loop over the remaining candidates. -/
def searchMin (fit : ArimaOrder → Option ℚ) :
    List ArimaOrder → Option (ArimaOrder × ℚ) → Option (ArimaOrder × ℚ)
  | [], acc => acc
  | o :: rest, acc => searchMin fit rest (selectStep fit acc o)

/-- `find_optimal_arima_order`: grid-search all candidates; if no
candidate fit (best_order is None), fall back to the configured
default order. -/
def find_optimal_arima_order (fit : ArimaOrder → Option ℚ)
    (max_p max_d max_q : ℕ) : ArimaOrder :=
  match searchMin fit (gridOrders max_p max_d max_q) none with
  | none => ARIMA_ORDER
  | some (o, _) => o

theorem selectStep_fit_none (fit : ArimaOrder → Option ℚ)
    (acc : Option (ArimaOrder × ℚ)) (o : ArimaOrder) (hx : fit o = none) :
    selectStep fit acc o = acc := by
  unfold selectStep
  rw [hx]

theorem selectStep_acc_none (fit : ArimaOrder → Option ℚ) (o : ArimaOrder)
    (a : ℚ) (hx : fit o = some a) : selectStep fit none o = some (o, a) := by
  unfold selectStep
  rw [hx]

theorem selectStep_acc_some (fit : ArimaOrder → Option ℚ) (o : ArimaOrder)
    (a : ℚ) (bo : ArimaOrder) (ba : ℚ) (hx : fit o = some a) :
    selectStep fit (some (bo, ba)) o =
      if a < ba then some (o, a) else some (bo, ba) := by
  unfold selectStep
  rw [hx]

theorem searchMin_none_iff (fit : ArimaOrder → Option ℚ) :
    ∀ (l : List ArimaOrder) (acc : Option (ArimaOrder × ℚ)),
      searchMin fit l acc = none ↔ acc = none ∧ ∀ o ∈ l, fit o = none := by
  intro l
  induction l with
  | nil => intro acc; simp [searchMin]
  | cons x rest ih =>
    intro acc
    rw [searchMin, ih]
    rcases hx : fit x with _ | a
    · rw [selectStep_fit_none fit acc x hx]
      constructor
      · rintro ⟨h1, h2⟩
        refine ⟨h1, fun o ho => ?_⟩
        rcases List.mem_cons.mp ho with rfl | ho'
        · exact hx
        · exact h2 o ho'
      · rintro ⟨h1, h2⟩
        exact ⟨h1, fun o ho => h2 o (List.mem_cons_of_mem x ho)⟩
    · have hne : selectStep fit acc x ≠ none := by
        rcases acc with _ | ⟨bo, ba⟩
        · rw [selectStep_acc_none fit x a hx]
          simp
        · rw [selectStep_acc_some fit x a bo ba hx]
          by_cases hlt : a < ba
          · rw [if_pos hlt]; simp
          · rw [if_neg hlt]; simp
      constructor
      · rintro ⟨h1, _⟩
        exact absurd h1 hne
      · rintro ⟨_, h2⟩
        exact absurd (h2 x (List.mem_cons_self x rest)) (by simp [hx])

theorem searchMin_some_spec (fit : ArimaOrder → Option ℚ) :
    ∀ (l : List ArimaOrder) (acc : Option (ArimaOrder × ℚ)) (o : ArimaOrder) (b : ℚ),
      searchMin fit l acc = some (o, b) →
      (∀ o' ∈ l, ∀ a', fit o' = some a' → b ≤ a') ∧
      (∀ bo ba, acc = some (bo, ba) → b ≤ ba) ∧
      (acc = some (o, b) ∨
        ∃ pre post, l = pre ++ o :: post ∧ fit o = some b ∧
          (∀ bo ba, acc = some (bo, ba) → b < ba) ∧
          (∀ o' ∈ pre, ∀ a', fit o' = some a' → b < a')) := by
  intro l
  induction l with
  | nil =>
    intro acc o b h
    rw [searchMin] at h
    subst h
    refine ⟨by simp, ?_, Or.inl rfl⟩
    intro bo ba hacc
    cases hacc
    exact le_refl b
  | cons x rest ih =>
    intro acc o b h
    rw [searchMin] at h
    obtain ⟨hmin, haccmin, hprov⟩ := ih (selectStep fit acc x) o b h
    rcases hx : fit x with _ | a
    · -- the candidate x failed to fit and was skipped
      rw [selectStep_fit_none fit acc x hx] at haccmin hprov
      refine ⟨?_, haccmin, ?_⟩
      · intro o' ho' a' ha'
        rcases List.mem_cons.mp ho' with rfl | ho''
        · rw [hx] at ha'; cases ha'
        · exact hmin o' ho'' a' ha'
      · rcases hprov with h1 | ⟨pre, post, hdec, hfo, hstrict, hpre⟩
        · exact Or.inl h1
        · refine Or.inr ⟨x :: pre, post, by rw [hdec]; rfl, hfo, hstrict, ?_⟩
          intro o' ho' a' ha'
          rcases List.mem_cons.mp ho' with rfl | ho''
          · rw [hx] at ha'; cases ha'
          · exact hpre o' ho'' a' ha'
    · rcases acc with _ | ⟨bo, ba⟩
      · -- x is the first fitting candidate seen
        rw [selectStep_acc_none fit x a hx] at haccmin hprov
        have hba : b ≤ a := haccmin x a rfl
        refine ⟨?_, ?_, ?_⟩
        · intro o' ho' a' ha'
          rcases List.mem_cons.mp ho' with rfl | ho''
          · rw [hx] at ha'; cases ha'; exact hba
          · exact hmin o' ho'' a' ha'
        · intro bo' ba' hacc
          cases hacc
        · rcases hprov with h1 | ⟨pre, post, hdec, hfo, hstrict, hpre⟩
          · cases h1
            refine Or.inr ⟨[], rest, rfl, hx, ?_, by simp⟩
            intro bo' ba' hacc
            cases hacc
          · have hsx : b < a := hstrict x a rfl
            refine Or.inr ⟨x :: pre, post, by rw [hdec]; rfl, hfo, ?_, ?_⟩
            · intro bo' ba' hacc
              cases hacc
            · intro o' ho' a' ha'
              rcases List.mem_cons.mp ho' with rfl | ho''
              · rw [hx] at ha'; cases ha'; exact hsx
              · exact hpre o' ho'' a' ha'
      · rw [selectStep_acc_some fit x a bo ba hx] at haccmin hprov
        by_cases hlt : a < ba
        · rw [if_pos hlt] at haccmin hprov
          have hba : b ≤ a := haccmin x a rfl
          refine ⟨?_, ?_, ?_⟩
          · intro o' ho' a' ha'
            rcases List.mem_cons.mp ho' with rfl | ho''
            · rw [hx] at ha'; cases ha'; exact hba
            · exact hmin o' ho'' a' ha'
          · intro bo' ba' hacc
            cases hacc
            exact le_trans hba (le_of_lt hlt)
          · rcases hprov with h1 | ⟨pre, post, hdec, hfo, hstrict, hpre⟩
            · cases h1
              refine Or.inr ⟨[], rest, rfl, hx, ?_, by simp⟩
              intro bo' ba' hacc
              cases hacc
              exact hlt
            · have hsx : b < a := hstrict x a rfl
              refine Or.inr ⟨x :: pre, post, by rw [hdec]; rfl, hfo, ?_, ?_⟩
              · intro bo' ba' hacc
                cases hacc
                exact lt_trans hsx hlt
              · intro o' ho' a' ha'
                rcases List.mem_cons.mp ho' with rfl | ho''
                · rw [hx] at ha'; cases ha'; exact hsx
                · exact hpre o' ho'' a' ha'
        · rw [if_neg hlt] at haccmin hprov
          have hbba : b ≤ ba := haccmin bo ba rfl
          refine ⟨?_, ?_, ?_⟩
          · intro o' ho' a' ha'
            rcases List.mem_cons.mp ho' with rfl | ho''
            · rw [hx] at ha'; cases ha'
              exact le_trans hbba (not_lt.mp hlt)
            · exact hmin o' ho'' a' ha'
          · intro bo' ba' hacc
            cases hacc
            exact hbba
          · rcases hprov with h1 | ⟨pre, post, hdec, hfo, hstrict, hpre⟩
            · exact Or.inl h1
            · have hsba : b < ba := hstrict bo ba rfl
              refine Or.inr ⟨x :: pre, post, by rw [hdec]; rfl, hfo, ?_, ?_⟩
              · intro bo' ba' hacc
                cases hacc
                exact hsba
              · intro o' ho' a' ha'
                rcases List.mem_cons.mp ho' with rfl | ho''
                · rw [hx] at ha'; cases ha'
                  exact lt_of_lt_of_le hsba (not_lt.mp hlt)
                · exact hpre o' ho'' a' ha'

theorem mem_gridOrders (max_p max_d max_q p d q : ℕ) :
    (p, d, q) ∈ gridOrders max_p max_d max_q ↔
      p ≤ max_p ∧ d ≤ max_d ∧ q ≤ max_q := by
  simp only [gridOrders, List.mem_flatMap, List.mem_map, List.mem_range,
    Nat.lt_succ_iff]
  constructor
  · rintro ⟨p', hp, d', hd, q', hq, heq⟩
    obtain ⟨rfl, rfl, rfl⟩ := Prod.mk.injEq .. ▸ (by
      injection heq with h1 h2
      injection h2 with h3 h4
      exact ⟨h1.symm, h3.symm, h4.symm⟩ :
        p = p' ∧ d = d' ∧ q = q')
    exact ⟨hp, hd, hq⟩
  · rintro ⟨hp, hd, hq⟩
    exact ⟨p, hp, d, hd, q, hq, rfl⟩

/-! ## Claim C8 -/

/-- C8: the order selector enumerates exactly the candidates
(p, d, q) with p ≤ max_p, d ≤ max_d, q ≤ max_q; when no candidate fits
it returns the configured default order; and when some candidate fits,
the returned order is a successfully fitted grid candidate whose AIC is
minimal among all fitted candidates, and every candidate enumerated
before it has a strictly larger AIC (failed fits are skipped, ties keep
the first-found). -/
theorem claim_C8_order_selection (fit : ArimaOrder → Option ℚ)
    (max_p max_d max_q : ℕ) :
    (∀ p d q : ℕ, (p, d, q) ∈ gridOrders max_p max_d max_q ↔
      p ≤ max_p ∧ d ≤ max_d ∧ q ≤ max_q) ∧
    ((∀ o ∈ gridOrders max_p max_d max_q, fit o = none) →
      find_optimal_arima_order fit max_p max_d max_q = ARIMA_ORDER) ∧
    (∀ o0 ∈ gridOrders max_p max_d max_q, ∀ a0, fit o0 = some a0 →
      ∃ b pre post,
        fit (find_optimal_arima_order fit max_p max_d max_q) = some b ∧
        gridOrders max_p max_d max_q =
          pre ++ find_optimal_arima_order fit max_p max_d max_q :: post ∧
        (∀ o' ∈ gridOrders max_p max_d max_q, ∀ a', fit o' = some a' → b ≤ a') ∧
        (∀ o' ∈ pre, ∀ a', fit o' = some a' → b < a')) := by
  refine ⟨mem_gridOrders max_p max_d max_q, ?_, ?_⟩
  · intro hall
    unfold find_optimal_arima_order
    rw [(searchMin_none_iff fit (gridOrders max_p max_d max_q) none).mpr ⟨rfl, hall⟩]
  · intro o0 ho0 a0 ha0
    rcases hs : searchMin fit (gridOrders max_p max_d max_q) none with _ | ⟨r, b⟩
    · exfalso
      exact absurd ((searchMin_none_iff fit _ none).mp hs).2 (by
        intro hall
        rw [hall o0 ho0] at ha0
        cases ha0)
    · obtain ⟨hmin, _, hprov⟩ := searchMin_some_spec fit _ none r b hs
      have hres : find_optimal_arima_order fit max_p max_d max_q = r := by
        unfold find_optimal_arima_order
        rw [hs]
      rcases hprov with h1 | ⟨pre, post, hdec, hfo, _, hpre⟩
      · cases h1
      · exact ⟨b, pre, post, by rw [hres]; exact hfo, by rw [hres]; exact hdec,
          hmin, hpre⟩

/-- Witness for C8: when every candidate in the 2×2×2 grid fails to
fit, the selector returns the configured default (1, 1, 1). -/
theorem claim_C8_witness :
    find_optimal_arima_order (fun _ => none) 1 1 1 = ARIMA_ORDER :=
  (claim_C8_order_selection (fun _ => none) 1 1 1).2.1 (fun _ _ => rfl)

/-! ## Feature Engine: `engineer_features`
(src/data/data_cleaner.py lines 120-161) -/

/-- The gain series of the RSI computation:
`delta.where(delta > 0, 0)` with `delta = close.diff()`.  The first
delta is `NaN`, and pandas evaluates `NaN > 0` as `False`, so the first
gain cell is 0, not missing. -/
def gainAt (closes : List ℚ) (j : ℕ) : ℚ :=
  if j = 0 then 0 else max (closes.getD j 0 - closes.getD (j - 1) 0) 0

/-- The loss series: `-delta.where(delta < 0, 0)`, with the same
first-cell convention. -/
def lossAt (closes : List ℚ) (j : ℕ) : ℚ :=
  if j = 0 then 0 else max (closes.getD (j - 1) 0 - closes.getD j 0) 0

/-- 14-period rolling mean of the gain series at position `i`
(full windows only, as with pandas `rolling(window=14).mean()`). -/
def avg_gain (closes : List ℚ) (i : ℕ) : ℚ :=
  (((List.range 14).map fun k => gainAt closes (i - k)).sum) / 14

/-- 14-period rolling mean of the loss series at position `i`. -/
def avg_loss (closes : List ℚ) (i : ℕ) : ℚ :=
  (((List.range 14).map fun k => lossAt closes (i - k)).sum) / 14

/-- The RSI cell: `rs = gain / loss`, `rsi = 100 - 100 / (1 + rs)`,
following IEEE float semantics of the pandas division: the cell is
missing for incomplete windows; when `avg_loss = 0` and `avg_gain > 0`,
`rs = +inf` and the cell is 100; when `avg_loss = 0` and
`avg_gain = 0`, `rs = 0/0 = NaN` and the cell is missing. -/
def rsiAt (closes : List ℚ) (i : ℕ) : Option ℚ :=
  if i < 13 ∨ closes.length ≤ i then none
  else if avg_loss closes i = 0 then
    (if avg_gain closes i = 0 then none else some 100)
  else some (100 - 100 / (1 + avg_gain closes i / avg_loss closes i))

theorem gainAt_nonneg (closes : List ℚ) (j : ℕ) : 0 ≤ gainAt closes j := by
  unfold gainAt
  split
  · exact le_refl 0
  · exact le_max_right _ _

theorem lossAt_nonneg (closes : List ℚ) (j : ℕ) : 0 ≤ lossAt closes j := by
  unfold lossAt
  split
  · exact le_refl 0
  · exact le_max_right _ _

theorem avg_gain_nonneg (closes : List ℚ) (i : ℕ) : 0 ≤ avg_gain closes i := by
  unfold avg_gain
  refine div_nonneg (List.sum_nonneg ?_) (by norm_num)
  intro x hx
  rcases List.mem_map.mp hx with ⟨k, _, rfl⟩
  exact gainAt_nonneg closes (i - k)

theorem avg_loss_nonneg (closes : List ℚ) (i : ℕ) : 0 ≤ avg_loss closes i := by
  unfold avg_loss
  refine div_nonneg (List.sum_nonneg ?_) (by norm_num)
  intro x hx
  rcases List.mem_map.mp hx with ⟨k, _, rfl⟩
  exact lossAt_nonneg closes (i - k)

/-! ## Claim C7 -/

/-- C7 (amended): every defined RSI value lies in [0, 100], and when the
trailing 14-period window has no losses but does have a gain
(`avg_loss = 0`, `avg_gain ≠ 0`), the RSI is defined and equals 100.
(The original claim fails when the window is entirely flat:
`avg_loss = 0` and `avg_gain = 0` give `rs = 0/0 = NaN`, so the RSI
cell is missing, not 100 — see the counterexample.) -/
theorem claim_C7_rsi_bounds (closes : List ℚ) (i : ℕ) :
    (∀ v, rsiAt closes i = some v → 0 ≤ v ∧ v ≤ 100) ∧
    (¬(i < 13 ∨ closes.length ≤ i) → avg_loss closes i = 0 →
      avg_gain closes i ≠ 0 → rsiAt closes i = some 100) := by
  constructor
  · intro v hv
    unfold rsiAt at hv
    by_cases hrange : i < 13 ∨ closes.length ≤ i
    · rw [if_pos hrange] at hv
      cases hv
    · rw [if_neg hrange] at hv
      by_cases hl0 : avg_loss closes i = 0
      · rw [if_pos hl0] at hv
        by_cases hg0 : avg_gain closes i = 0
        · rw [if_pos hg0] at hv
          cases hv
        · rw [if_neg hg0] at hv
          cases hv
          norm_num
      · rw [if_neg hl0] at hv
        cases hv
        have hg : 0 ≤ avg_gain closes i := avg_gain_nonneg closes i
        have hl : 0 < avg_loss closes i :=
          lt_of_le_of_ne (avg_loss_nonneg closes i) (Ne.symm hl0)
        have hrs : 0 ≤ avg_gain closes i / avg_loss closes i :=
          div_nonneg hg (le_of_lt hl)
        have hden : (0:ℚ) < 1 + avg_gain closes i / avg_loss closes i := by
          linarith
        have hd_pos : (0:ℚ) < 100 / (1 + avg_gain closes i / avg_loss closes i) :=
          div_pos (by norm_num) hden
        have hd_le : 100 / (1 + avg_gain closes i / avg_loss closes i) ≤ 100 := by
          rw [div_le_iff₀ hden]
          nlinarith
        constructor
        · linarith
        · linarith
  · intro hrange hl0 hg0
    unfold rsiAt
    rw [if_neg hrange, if_pos hl0, if_neg hg0]

/-- C7 counterexample: a fully flat 14-close window has `avg_loss = 0`,
yet the RSI cell is missing (0/0 is `NaN`), not 100 as the claim
states. -/
theorem claim_C7_counterexample :
    avg_loss (List.replicate 14 (100:ℚ)) 13 = 0 ∧
    rsiAt (List.replicate 14 (100:ℚ)) 13 = none := by
  have hl : avg_loss (List.replicate 14 (100:ℚ)) 13 = 0 := by
    norm_num [avg_loss, lossAt, List.range_succ, List.getD, max_def]
  have hg : avg_gain (List.replicate 14 (100:ℚ)) 13 = 0 := by
    norm_num [avg_gain, gainAt, List.range_succ, List.getD, max_def]
  refine ⟨hl, ?_⟩
  unfold rsiAt
  rw [if_neg (by norm_num), if_pos hl, if_pos hg]

/-- Witness for C7: a strictly rising 14-close window has no losses and
a positive average gain, and the RSI is 100 there. -/
theorem claim_C7_witness :
    rsiAt [1, 2, 3, 4, 5, 6, 7, 8, 9, 10, 11, 12, 13, 14] 13 = some 100 :=
  (claim_C7_rsi_bounds [1, 2, 3, 4, 5, 6, 7, 8, 9, 10, 11, 12, 13, 14] 13).2
    (by norm_num)
    (by norm_num [avg_loss, lossAt, List.range_succ, List.getD, max_def])
    (by norm_num [avg_gain, gainAt, List.range_succ, List.getD, max_def])

/-! ## Feature rows and `save_cleaned_data`
(src/data/data_cleaner.py lines 120-161 and 167-202) -/

/-- `rolling(window=w).mean()` over a column: defined only for full
windows (position `i` with `i + 1 ≥ w`). -/
def rollingMean (xs : List ℚ) (w i : ℕ) : Option ℚ :=
  if w ≤ i + 1 then
    some ((((List.range w).map fun k => xs.getD (i - k) 0).sum) / w)
  else none

/-- `pct_change() * 100` at position `i`; the first cell is missing.
Faithful to the source for positive closes (the cleaning stage
guarantees `close > 0`; with a zero previous close pandas would produce
an IEEE infinity or `NaN` instead of a rational). -/
def daily_return_at (closes : List ℚ) (i : ℕ) : Option ℚ :=
  if i = 0 then none
  else some ((closes.getD i 0 - closes.getD (i - 1) 0) / closes.getD (i - 1) 0 * 100)

/-- The sample variance (`ddof = 1`) of a list of values — the square
of the rolling standard deviation the source stores.  Only the
definedness of the cell matters downstream (`dropna`), and squaring
preserves it exactly. -/
def sampleVar (xs : List ℚ) : ℚ :=
  (xs.map fun x => (x - xs.sum / xs.length) ^ 2).sum / ((xs.length : ℚ) - 1)

/-- `daily_return.rolling(window=w).std()` at position `i` (recorded as
the variance, see `sampleVar`): defined exactly when the window is full
and contains no missing return, i.e. when `i ≥ w` (the return at
position 0 is missing). -/
def volatility_at (closes : List ℚ) (w i : ℕ) : Option ℚ :=
  if w ≤ i then
    some (sampleVar ((List.range w).map fun k =>
      (closes.getD (i - k) 0 - closes.getD (i - k - 1) 0) / closes.getD (i - k - 1) 0 * 100))
  else none

/-- A bar with the engineered feature columns of `engineer_features`.
Cells that pandas leaves `NaN` for lack of history are `none`. -/
structure FeatRow where
  symbol : String
  date : ℤ
  open_ : ℚ
  high : ℚ
  low : ℚ
  close : ℚ
  volume : ℚ
  ma_5 : Option ℚ
  ma_10 : Option ℚ
  ma_20 : Option ℚ
  daily_return : Option ℚ
  price_range : ℚ
  price_range_pct : ℚ
  volume_ma_5 : Option ℚ
  volatility_5 : Option ℚ
  volatility_10 : Option ℚ
  rsi : Option ℚ
deriving DecidableEq, Inhabited

/-- `engineer_features`: add moving averages over 5/10/20 closes, the
daily return, price ranges, the 5-period volume moving average, 5- and
10-period return volatilities, and the 14-period RSI; all columns are
index-aligned with the input, no row is dropped or reordered. -/
def engineer_features (bars : List StockRow) : List FeatRow :=
  (List.range bars.length).map fun i =>
    { symbol := (bars.getD i default).symbol
      date := (bars.getD i default).date
      open_ := (bars.getD i default).open_
      high := (bars.getD i default).high
      low := (bars.getD i default).low
      close := (bars.getD i default).close
      volume := (bars.getD i default).volume
      ma_5 := rollingMean (bars.map fun r => r.close) 5 i
      ma_10 := rollingMean (bars.map fun r => r.close) 10 i
      ma_20 := rollingMean (bars.map fun r => r.close) 20 i
      daily_return := daily_return_at (bars.map fun r => r.close) i
      price_range := (bars.getD i default).high - (bars.getD i default).low
      price_range_pct :=
        ((bars.getD i default).high - (bars.getD i default).low) /
          (bars.getD i default).close * 100
      volume_ma_5 := rollingMean (bars.map fun r => r.volume) 5 i
      volatility_5 := volatility_at (bars.map fun r => r.close) 5 i
      volatility_10 := volatility_at (bars.map fun r => r.close) 10 i
      rsi := rsiAt (bars.map fun r => r.close) i }

/-- `df.dropna()` row predicate in `save_cleaned_data`: every nullable
cell of the row is present (the non-Option columns are never null). -/
def featNotNull (r : FeatRow) : Bool :=
  r.ma_5.isSome && r.ma_10.isSome && r.ma_20.isSome && r.daily_return.isSome &&
  r.volume_ma_5.isSome && r.volatility_5.isSome && r.volatility_10.isSome &&
  r.rsi.isSome

/-- A row of the `stocks_clean` table: only
symbol/date/OHLCV/ma_5/ma_10/ma_20/daily_return are persisted
(`columns_to_save` in `save_cleaned_data`). -/
structure CleanRow where
  symbol : String
  date : ℤ
  open_ : ℚ
  high : ℚ
  low : ℚ
  close : ℚ
  volume : ℚ
  ma_5 : Option ℚ
  ma_10 : Option ℚ
  ma_20 : Option ℚ
  daily_return : Option ℚ
deriving DecidableEq, Inhabited

/-- Projection of a feature row onto the persisted columns. -/
def to_clean_row (r : FeatRow) : CleanRow :=
  { symbol := r.symbol, date := r.date, open_ := r.open_, high := r.high,
    low := r.low, close := r.close, volume := r.volume, ma_5 := r.ma_5,
    ma_10 := r.ma_10, ma_20 := r.ma_20, daily_return := r.daily_return }

/-- The (symbol, date) identity key of a `stocks_clean` row. -/
def cleanKey (r : CleanRow) : String × ℤ := (r.symbol, r.date)

/-- `save_cleaned_data`: skip an empty frame; otherwise drop every row
with a `NaN` in any column, project onto the persisted columns, drop
duplicate (symbol, date) rows, and append to `stocks_clean`. -/
def save_cleaned_data (rows : List FeatRow) (stocks_clean : List CleanRow) :
    List CleanRow :=
  if rows = [] then stocks_clean
  else stocks_clean ++ dropDupBy cleanKey ((rows.filter featNotNull).map to_clean_row)

/-- The rows a single pipeline run appends to an empty `stocks_clean`
store for one symbol's bars. -/
def saved_rows (bars : List StockRow) : List CleanRow :=
  save_cleaned_data (engineer_features bars) []

theorem engineer_features_getD_ma_20 (bars : List StockRow) (i : ℕ)
    (h : i < bars.length) :
    ((engineer_features bars).getD i default).ma_20 =
      rollingMean (bars.map fun r => r.close) 20 i := by
  unfold engineer_features
  rw [List.getD_eq_getElem _ _ (by simpa using h)]
  simp

theorem engineer_features_getD_featNotNull (bars : List StockRow) (i : ℕ)
    (h : i < bars.length) (h19 : i < 19) :
    featNotNull ((engineer_features bars).getD i default) = false := by
  have hma : ((engineer_features bars).getD i default).ma_20 = none := by
    rw [engineer_features_getD_ma_20 bars i h]
    unfold rollingMean
    rw [if_neg (by omega)]
  generalize he : (engineer_features bars).getD i default = r at hma ⊢
  simp [featNotNull, hma]

/-! ## Claim C10 -/

/-- C10: every row appended to `stocks_clean` has all four persisted
feature columns (ma_5, ma_10, ma_20, daily_return) non-null, because
`save_cleaned_data` drops every row with a missing cell in any computed
column (including RSI, the volatilities and volume_ma_5, which are not
themselves persisted) before writing; in particular the first 19 rows
of any symbol's sequence (whose 20-period moving average lacks history)
have a null `ma_20`, fail the drop filter, and are never written.  The
positivity hypothesis is the cleaning-stage guarantee under which the
rational embedding of `pct_change` is exact. -/
theorem claim_C10_saved_rows_nonnull (bars : List StockRow)
    (_hpos : ∀ b ∈ bars, 0 < b.close) :
    (∀ r ∈ saved_rows bars,
      r.ma_5.isSome = true ∧ r.ma_10.isSome = true ∧ r.ma_20.isSome = true ∧
        r.daily_return.isSome = true) ∧
    (∀ i, i < bars.length → i < 19 →
      ((engineer_features bars).getD i default).ma_20 = none ∧
      featNotNull ((engineer_features bars).getD i default) = false) := by
  constructor
  · intro r hr
    unfold saved_rows save_cleaned_data at hr
    by_cases hemp : engineer_features bars = []
    · rw [if_pos hemp] at hr
      cases hr
    · rw [if_neg hemp] at hr
      rw [List.nil_append] at hr
      have hr2 := mem_of_mem_dropDupBy cleanKey hr
      rcases List.mem_map.mp hr2 with ⟨f, hf, rfl⟩
      have hnn : featNotNull f = true := (List.mem_filter.mp hf).2
      unfold featNotNull at hnn
      simp only [Bool.and_eq_true] at hnn
      exact ⟨hnn.1.1.1.1.1.1.1, hnn.1.1.1.1.1.1.2, hnn.1.1.1.1.1.2, hnn.1.1.1.1.2⟩
  · intro i hlen h19
    exact ⟨by
      rw [engineer_features_getD_ma_20 bars i hlen]
      unfold rollingMean
      rw [if_neg (by omega)],
      engineer_features_getD_featNotNull bars i hlen h19⟩

/-- Witness for C10: on a two-bar sequence the first row lacks
20-period history, its ma_20 is null and the row fails the save
filter. -/
theorem claim_C10_witness :
    ((engineer_features
        [{ symbol := "AAPL", date := 0, open_ := 1, high := 1, low := 1,
           close := 1, volume := 1 },
         { symbol := "AAPL", date := 1, open_ := 1, high := 1, low := 1,
           close := 2, volume := 1 }]).getD 0 default).ma_20 = none ∧
    featNotNull ((engineer_features
        [{ symbol := "AAPL", date := 0, open_ := 1, high := 1, low := 1,
           close := 1, volume := 1 },
         { symbol := "AAPL", date := 1, open_ := 1, high := 1, low := 1,
           close := 2, volume := 1 }]).getD 0 default) = false :=
  (claim_C10_saved_rows_nonnull
    [{ symbol := "AAPL", date := 0, open_ := 1, high := 1, low := 1,
       close := 1, volume := 1 },
     { symbol := "AAPL", date := 1, open_ := 1, high := 1, low := 1,
       close := 2, volume := 1 }]
    (by
      intro b hb
      fin_cases hb
      · norm_num
      · norm_num)).2 0 (by norm_num) (by norm_num)

end StockPipeline
